import Mathlib

/-!
Verification of `casinosim.py` (light-switch/casinosim).

The CLI driver `main` in `src/casinosim.py` is embedded as a pure function
producing a trace of observable events (prints, exits, external calls such as
loading the strategy file, constructing the betting system, and the
`reset()`/`run()`/`add()` calls of the iteration loop).  Command-line options
are embedded post-`getopt`, as the list of `(o, a)` pairs the option loop
consumes.  The `simulator` package itself (the `stats` and `simulator`
modules) is not part of the repository snapshot, so `TotalStats.add` and
`Simulator.run` are modelled from the specification where a claim needs them.
-/

namespace Casinosim

/-- The keys of the `BETTING_SYSTEMS` dict of `casinosim.py` (lines 8-13),
in insertion order: "none", "martingale", "fp", "simple". -/
def BETTING_SYSTEMS : List String := ["none", "martingale", "fp", "simple"]

/-- Lexicographic strict comparison of two character lists by Unicode code
point — Python's `<` on strings. -/
def strLtB : List Char → List Char → Bool
  | [], [] => false
  | [], _ :: _ => true
  | _ :: _, [] => false
  | a :: as, b :: bs =>
    if a.toNat < b.toNat then true
    else if b.toNat < a.toNat then false
    else strLtB as bs

/-- Python's `<=` on strings: code-point lexicographic. -/
def strLe (a b : String) : Bool := !(strLtB b.data a.data)

/-- Insertion of a string into a sorted list (ascending), used to model
Python's `sorted(...)` on the betting-system names. -/
def insertSorted (s : String) : List String → List String
  | [] => [s]
  | t :: ts => if strLe s t then s :: t :: ts else t :: insertSorted s ts

/-- Insertion sort on strings, modelling Python's `sorted(...)`
(lexicographic ascending). -/
def sortStrings : List String → List String
  | [] => []
  | s :: ss => insertSorted s (sortStrings ss)

/-- `sorted(BETTING_SYSTEMS.keys())` as printed at lines 75, 132-133 and 152. -/
def sortedSystems : List String := sortStrings BETTING_SYSTEMS

/-- Observable events of one invocation of `main` (in program order):
prints, `sys.exit` calls, and the calls into the `simulator` package. -/
inductive Event where
  /-- `usage(sys.argv[0])` printed (lines 59-75). -/
  | usage : Event
  /-- `sys.exit(code)`; `sys.exit()` with no argument is `exitc 0`. -/
  | exitc : Nat → Event
  /-- `open(a, mode='w')` for `-f`/`--out-file` (line 124). -/
  | openOut : String → Event
  /-- the `--list-bet-systems` print of the sorted system names (lines 132-133). -/
  | listSystems : List String → Event
  /-- `strategy.BlackjackStrategy.from_file(strat_file, ...)` (line 148). -/
  | loadStrat : String → Event
  /-- `just_print("Invalid betting system '...'")` (line 151). -/
  | invalidSystem : String → Event
  /-- `just_print("Available systems:", ...)` with the sorted names (line 152). -/
  | availableSystems : List String → Event
  /-- `just_print("gold required to use a betting system")` (line 156). -/
  | goldRequired : Event
  /-- `BETTING_SYSTEMS[bet_system_name].from_options(bet_options)` (line 159). -/
  | buildBet : String → String → Event
  /-- `just_print("At least one end condition ... needs to be enabled.")` (line 162). -/
  | noEndCondition : Event
  /-- the banner prints of lines 165-180 ("Casino Simulator 9000!" through
  "Running N iterations..."), plus the `BlackjackSimulator` construction and
  its `set_*` calls (lines 184-192). -/
  | banner : Event
  /-- `bj.reset()` (line 199). -/
  | reset : Event
  /-- `bj.run(rounds)` (line 201). -/
  | run : Int → Event
  /-- `total_stats.add(st)` plus the per-reason bookkeeping (lines 203-208). -/
  | addStats : Event
  /-- `just_print("Completed in ...")` (line 211). -/
  | completedIn : Event
  /-- the "Results:" block (lines 215-224). -/
  | results : Event
  /-- `total_stats.print(just_print)` (lines 225-226). -/
  | statsPrint : Event
deriving DecidableEq, Repr

/-- The parsed command-line options, i.e. the `(o, a)` pairs the loop at
lines 117-146 consumes (post-`getopt`; option arguments that the loop passes
through `int(...)` are carried as integers). -/
inductive Opt where
  | verbose : Opt
  | help : Opt
  | outFile : String → Opt
  | strat : String → Opt
  | betSystem : String → Opt
  | betOptions : String → Opt
  | listBetSystems : Opt
  | iterations : Int → Opt
  | rounds : Int → Opt
  | gold : Int → Opt
  | target : Int → Opt
  | antiFallacy : Opt
deriving DecidableEq, Repr

/-- The mutable configuration of `main`, with the defaults of
lines 91-115 of `casinosim.py`. -/
structure Config where
  verbose : Bool := false
  hasOutFile : Bool := false
  iterations : Int := 1
  starting_gold : Int := 0
  strat_file : String := "strats/strat.txt"
  bet_system_name : String := "none"
  bet_options : String := ""
  bet_anti_fallacy : Bool := false
  target_gold : Int := 0
  rounds : Int := 0
deriving DecidableEq, Repr

/-- The option-processing loop (lines 117-146).  Returns the events emitted
while processing together with `some` final configuration, or `none` when an
option (`-h`/`--help` or `--list-bet-systems`) calls `sys.exit` and the rest
of `main` never runs. -/
def processOpts : Config → List Opt → List Event × Option Config
  | c, [] => ([], some c)
  | c, o :: rest =>
    match o with
    | .verbose => processOpts { c with verbose := true } rest
    | .help => ([Event.usage, Event.exitc 0], none)
    | .outFile a =>
      (Event.openOut a :: (processOpts { c with hasOutFile := true } rest).1,
        (processOpts { c with hasOutFile := true } rest).2)
    | .strat a => processOpts { c with strat_file := a } rest
    | .betSystem a => processOpts { c with bet_system_name := a } rest
    | .betOptions a => processOpts { c with bet_options := a } rest
    | .listBetSystems => ([Event.listSystems sortedSystems, Event.exitc 0], none)
    | .iterations n => processOpts { c with iterations := n } rest
    | .rounds n => processOpts { c with rounds := n } rest
    | .gold n => processOpts { c with starting_gold := n } rest
    | .target n => processOpts { c with target_gold := n } rest
    | .antiFallacy => processOpts { c with bet_anti_fallacy := true } rest

/-- One iteration of the loop at lines 198-208: `bj.reset()`, `bj.run(rounds)`,
then merging the run's stats (`total_stats.add(st)` and the reason counters),
repeated `n` times (`for _ in range(0, iterations)`). -/
def iterTrace (rounds : Int) : Nat → List Event
  | 0 => []
  | n + 1 => Event.reset :: Event.run rounds :: Event.addStats :: iterTrace rounds n

/-- The part of `main` after the configuration checks pass (lines 165-226):
banner prints, the iteration loop (`range(0, iterations)` iterates
`max(iterations, 0)` times), and the final reporting. -/
def runPhase (c : Config) : List Event :=
  Event.banner :: iterTrace c.rounds c.iterations.toNat
    ++ [Event.completedIn, Event.results, Event.statsPrint]

/-- `main` from line 148 on: load the strategy file, then the three
configuration checks in program order (unknown betting system, lines 150-153;
betting system without gold, lines 155-157; betting-system construction,
line 159; no end condition, lines 161-163), then the run phase. -/
def mainAfterOpts (c : Config) : List Event :=
  Event.loadStrat c.strat_file ::
    (if c.bet_system_name ∉ BETTING_SYSTEMS then
      [Event.invalidSystem c.bet_system_name,
        Event.availableSystems sortedSystems, Event.exitc 1]
    else if c.bet_system_name ≠ "none" ∧ c.starting_gold = 0 then
      [Event.goldRequired, Event.exitc 1]
    else
      Event.buildBet c.bet_system_name c.bet_options ::
        (if c.target_gold = 0 ∧ c.rounds = 0 then
          [Event.noEndCondition, Event.exitc 1]
        else
          runPhase c))

/-- The whole of `main` (lines 78-228) on a successfully `getopt`-parsed
option list: `argc` is `len(sys.argv)`; fewer than two entries prints usage
and exits with status 1 (lines 79-81). -/
def main (argc : Nat) (opts : List Opt) : List Event :=
  if argc < 2 then [Event.usage, Event.exitc 1]
  else
    match processOpts {} opts with
    | (es, none) => es
    | (es, some c) => es ++ mainAfterOpts c

/-- The three-sided configuration check of lines 150-163: the betting-system
name is known, a betting system other than "none" has gold, and at least one
end condition is enabled.  Exactly when this holds, `main` reaches the
iteration loop. -/
def Config.checksPass (c : Config) : Prop :=
  c.bet_system_name ∈ BETTING_SYSTEMS
    ∧ ¬(c.bet_system_name ≠ "none" ∧ c.starting_gold = 0)
    ∧ ¬(c.target_gold = 0 ∧ c.rounds = 0)

instance (c : Config) : Decidable c.checksPass := by
  unfold Config.checksPass; infer_instance

/-- `true` on the events that call into the simulation (`bj.reset()`,
`bj.run(...)`) or merge stats — the events that mean "a run happened". -/
def Event.isRunActivity : Event → Bool
  | .reset => true
  | .run _ => true
  | .addStats => true
  | _ => false

/-- `true` exactly on `Event.loadStrat` events. -/
def Event.isLoadStrat : Event → Bool
  | .loadStrat _ => true
  | _ => false

/-- `true` exactly on `Event.reset`. -/
def Event.isReset : Event → Bool
  | .reset => true
  | _ => false

/-- `true` exactly on `Event.run` events. -/
def Event.isRun : Event → Bool
  | .run _ => true
  | _ => false

/-- `true` exactly on `Event.addStats`. -/
def Event.isAddStats : Event → Bool
  | .addStats => true
  | _ => false

/-- `true` exactly on `Event.buildBet` events. -/
def Event.isBuildBet : Event → Bool
  | .buildBet _ _ => true
  | _ => false

/-- `true` exactly on `Event.listSystems` events. -/
def Event.isListSystems : Event → Bool
  | .listSystems _ => true
  | _ => false

/-!
## Spec-modelled statistics accumulator

The `stats` module of the `simulator` package is not part of the repository
snapshot; the accumulator below is modelled from the specification (§3, §4.6).
-/

/-- Modelled from the spec: per-run statistics (`RunStats`, spec §3) — the
`stats` module is missing from the snapshot.  "per-run counters — hands dealt,
wins, losses, pushes, blackjacks, busts, gold at start/end, min gold seen". -/
structure RunStats where
  total_hands : Int
  wins : Int
  losses : Int
  pushes : Int
  blackjacks : Int
  busts : Int
  gold_start : Int
  gold_end : Int
  gold_min : Int
deriving DecidableEq, Repr

/-- Modelled from the spec: the cross-run accumulator (`TotalStats`,
spec §3/§4.6) — the `stats` module is missing from the snapshot.  "sums for
counts, min-of-mins for the floor, running mean accumulation for averages";
§4.6: "store sums and counts, not precomputed means, until a final
`summarize()`/`print()` step divides once". -/
structure TotalStats where
  total_hands : Int
  wins : Int
  losses : Int
  pushes : Int
  blackjacks : Int
  busts : Int
  gold_min : Int
  gold_end_sum : Int
  run_count : Int
deriving DecidableEq, Repr

/-- Modelled from the spec: `TotalStats.add(other: RunStats)` (spec §4.6) —
"sums counters; updates min-gold floor via `min()`; recomputes mean fields
using a running-sum/running-count scheme". -/
def TotalStats.add (t : TotalStats) (r : RunStats) : TotalStats :=
  { total_hands := t.total_hands + r.total_hands
    wins := t.wins + r.wins
    losses := t.losses + r.losses
    pushes := t.pushes + r.pushes
    blackjacks := t.blackjacks + r.blackjacks
    busts := t.busts + r.busts
    gold_min := min t.gold_min r.gold_min
    gold_end_sum := t.gold_end_sum + r.gold_end
    run_count := t.run_count + 1 }

/-- Modelled from the spec: the mean of the end-gold values, as the final
`summarize()`/`print()` step divides it (spec §4.6), over ℚ. -/
def TotalStats.meanGoldEnd (t : TotalStats) : ℚ :=
  (t.gold_end_sum : ℚ) / (t.run_count : ℚ)

/-!
## Spec-modelled simulator run loop

The `simulator` module is likewise absent; `run` is modelled from spec §4.5.
The betting system and the round engine are abstracted as an oracle giving,
for each round index, either a skipped round (rejected/zero bet) or a played
round with its net gold delta.
-/

/-- Modelled from the spec: what one iteration of the run loop does to the
bankroll (spec §4.5) — a skipped round (bet rejected or zero) or a played
round with its `gold_delta`. -/
inductive RoundOutcome where
  | skipped : RoundOutcome
  | played : Int → RoundOutcome
deriving DecidableEq, Repr

/-- Modelled from the spec: the termination check run "after every round
(including skipped ones, for round-count purposes) in fixed priority order"
(spec §4.5): (a) target reached, (b) broke, (c) rounds exhausted. -/
def checkTermination (target_gold max_rounds : Int) (gold : Int)
    (roundsPlayed : Nat) : Option String :=
  if target_gold > 0 ∧ gold ≥ target_gold then some "target reached"
  else if gold ≤ 0 then some "broke"
  else if max_rounds > 0 ∧ (roundsPlayed : Int) ≥ max_rounds then
    some "rounds exhausted"
  else none

/-- Modelled from the spec: the bankroll update of one loop iteration
(spec §4.5) — a skipped round leaves the bankroll unchanged, a played round
applies its `gold_delta`. -/
def applyOutcome (gold : Int) : RoundOutcome → Int
  | .skipped => gold
  | .played delta => gold + delta

/-- Modelled from the spec: the body of `Simulator.run`'s loop (spec §4.5),
with explicit fuel.  Each iteration consumes the oracle's outcome for the
current round index, updates the bankroll, increments the round counter and
then runs the termination check; `none` means the fuel ran out before a
termination condition fired. -/
def runLoop (oracle : Nat → RoundOutcome) (target_gold max_rounds : Int) :
    Nat → Int → Nat → Option (String × Nat)
  | 0, _, _ => none
  | fuel + 1, gold, roundsPlayed =>
    match checkTermination target_gold max_rounds
        (applyOutcome gold (oracle roundsPlayed)) (roundsPlayed + 1) with
    | some reason => some (reason, roundsPlayed + 1)
    | none =>
      runLoop oracle target_gold max_rounds fuel
        (applyOutcome gold (oracle roundsPlayed)) (roundsPlayed + 1)

/-- Modelled from the spec: `Simulator.run(max_rounds)` (spec §4.5), starting
from the post-`reset()` state (bankroll = starting gold, zero rounds played),
with enough fuel for condition (c) to fire. -/
def Simulator.run (oracle : Nat → RoundOutcome)
    (target_gold starting_gold max_rounds : Int) : Option (String × Nat) :=
  runLoop oracle target_gold max_rounds max_rounds.toNat starting_gold 0

/-!
## Helper lemmas
-/

theorem iterTrace_eq_replicate (r : Int) (n : Nat) :
    iterTrace r n
      = (List.replicate n [Event.reset, Event.run r, Event.addStats]).flatten := by
  induction n with
  | zero => rfl
  | succ n ih => simp [iterTrace, List.replicate_succ, ih]

theorem countP_iterTrace_reset (r : Int) (n : Nat) :
    (iterTrace r n).countP Event.isReset = n := by
  induction n with
  | zero => rfl
  | succ n ih => simp [iterTrace, List.countP_cons, Event.isReset, Event.isRun,
      Event.isAddStats, ih]

theorem countP_iterTrace_run (r : Int) (n : Nat) :
    (iterTrace r n).countP Event.isRun = n := by
  induction n with
  | zero => rfl
  | succ n ih => simp [iterTrace, List.countP_cons, Event.isRun, ih]

theorem countP_iterTrace_addStats (r : Int) (n : Nat) :
    (iterTrace r n).countP Event.isAddStats = n := by
  induction n with
  | zero => rfl
  | succ n ih => simp [iterTrace, List.countP_cons, Event.isAddStats, ih]

theorem countP_iterTrace_loadStrat (r : Int) (n : Nat) :
    (iterTrace r n).countP Event.isLoadStrat = 0 := by
  induction n with
  | zero => rfl
  | succ n ih => simp [iterTrace, List.countP_cons, Event.isLoadStrat, ih]

/-- The option-processing loop never loads the strategy file: that happens
only at line 148, after the loop. -/
theorem processOpts_countP_loadStrat (opts : List Opt) (c : Config) :
    ((processOpts c opts).1).countP Event.isLoadStrat = 0 := by
  induction opts generalizing c with
  | nil => rfl
  | cons o rest ih =>
    cases o <;> simp [processOpts, List.countP_cons, Event.isLoadStrat, ih]

/-- `mainAfterOpts` always starts by loading the strategy file and never
loads it again. -/
theorem mainAfterOpts_loadStrat_once (c : Config) :
    ∃ rest, mainAfterOpts c = Event.loadStrat c.strat_file :: rest
      ∧ rest.countP Event.isLoadStrat = 0 := by
  unfold mainAfterOpts
  refine ⟨_, rfl, ?_⟩
  split
  · rfl
  · split
    · rfl
    · rw [List.countP_cons]
      split
      · rfl
      · simp [runPhase, List.countP_cons, List.countP_append,
          countP_iterTrace_loadStrat, Event.isLoadStrat]

/-!
## Claims
-/

/-- C3: if the requested betting-system name is not one of the known variants
{none, martingale, fp, simple}, execution fails fast before any run starts,
reporting the invalid name and the (sorted) set of available systems, and
exiting with status 1; no reset/run/stats-merge ever happens. -/
theorem invalid_bet_system_fails_fast (c : Config)
    (h : c.bet_system_name ∉ BETTING_SYSTEMS) :
    mainAfterOpts c
      = [Event.loadStrat c.strat_file,
          Event.invalidSystem c.bet_system_name,
          Event.availableSystems sortedSystems, Event.exitc 1]
    ∧ sortedSystems.Perm BETTING_SYSTEMS
    ∧ (mainAfterOpts c).countP Event.isRunActivity = 0
    ∧ (mainAfterOpts c).countP Event.isBuildBet = 0 := by
  have hEq : mainAfterOpts c
      = [Event.loadStrat c.strat_file,
          Event.invalidSystem c.bet_system_name,
          Event.availableSystems sortedSystems, Event.exitc 1] := by
    unfold mainAfterOpts
    simp [h]
  refine ⟨hEq, by decide, ?_, ?_⟩ <;> rw [hEq] <;> rfl

/-- C3 witness: the unknown system name "foo". -/
theorem invalid_bet_system_fails_fast_witness :
    "foo" ∉ BETTING_SYSTEMS
    ∧ mainAfterOpts { bet_system_name := "foo" }
        = [Event.loadStrat "strats/strat.txt",
            Event.invalidSystem "foo",
            Event.availableSystems sortedSystems, Event.exitc 1] :=
  ⟨by decide,
    (invalid_bet_system_fails_fast { bet_system_name := "foo" } (by decide)).1⟩

/-- C2 counterexample: requesting the betting system "none" with
starting gold 0 (and a target so the end-condition check passes) does NOT
fail fast — the line 155 check requires `bet_system_name != "none"` — the
iteration loop runs (a `reset` happens) and no gold-required message or
error exit is emitted. -/
theorem bet_system_none_without_gold_runs :
    (mainAfterOpts
        { bet_system_name := "none", starting_gold := 0, target_gold := 100 }
      ).countP Event.isReset = 1
    ∧ Event.goldRequired
        ∉ mainAfterOpts
            { bet_system_name := "none", starting_gold := 0, target_gold := 100 }
    ∧ Event.exitc 1
        ∉ mainAfterOpts
            { bet_system_name := "none", starting_gold := 0, target_gold := 100 } := by
  decide

/-- C2 amended: for every requested betting system other than "none", if the
configured starting gold is 0 the configuration fails fast before any run
starts, surfaced with a message — the gold-required message when the system
is known (lines 155-157), the invalid-system message otherwise
(lines 150-153). -/
theorem bet_system_without_gold_fails_fast (c : Config)
    (hname : c.bet_system_name ≠ "none") (hgold : c.starting_gold = 0) :
    (mainAfterOpts c
        = [Event.loadStrat c.strat_file, Event.goldRequired, Event.exitc 1]
      ∨ mainAfterOpts c
        = [Event.loadStrat c.strat_file,
            Event.invalidSystem c.bet_system_name,
            Event.availableSystems sortedSystems, Event.exitc 1])
    ∧ (mainAfterOpts c).countP Event.isRunActivity = 0
    ∧ Event.exitc 1 ∈ mainAfterOpts c := by
  by_cases hmem : c.bet_system_name ∈ BETTING_SYSTEMS
  · have hEq : mainAfterOpts c
        = [Event.loadStrat c.strat_file, Event.goldRequired, Event.exitc 1] := by
      unfold mainAfterOpts
      simp [hmem, hname, hgold]
    exact ⟨Or.inl hEq, by rw [hEq]; rfl, by rw [hEq]; simp⟩
  · have hEq : mainAfterOpts c
        = [Event.loadStrat c.strat_file,
            Event.invalidSystem c.bet_system_name,
            Event.availableSystems sortedSystems, Event.exitc 1] := by
      unfold mainAfterOpts
      simp [hmem]
    exact ⟨Or.inr hEq, by rw [hEq]; rfl, by rw [hEq]; simp⟩

/-- C2 amended witness: martingale with zero gold. -/
theorem bet_system_without_gold_fails_fast_witness :
    ("martingale" : String) ≠ "none"
    ∧ (mainAfterOpts { bet_system_name := "martingale", starting_gold := 0 }
        ).countP Event.isRunActivity = 0 :=
  ⟨by decide,
    (bet_system_without_gold_fails_fast
      { bet_system_name := "martingale", starting_gold := 0 }
      (by decide) (by decide)).2.1⟩

/-- C1 counterexample: with target 0, rounds 0 AND gold 0 but betting system
"martingale", the program fails fast with the gold-required message of
line 156 — it never reports the missing end condition, contrary to the claim
that under this precondition it "reports the missing end condition". -/
theorem no_end_condition_message_cex :
    (Config.target_gold
          { bet_system_name := "martingale", starting_gold := 0 } = 0
      ∧ Config.rounds
          { bet_system_name := "martingale", starting_gold := 0 } = 0
      ∧ Config.starting_gold
          { bet_system_name := "martingale", starting_gold := 0 } = 0)
    ∧ Event.noEndCondition
        ∉ mainAfterOpts { bet_system_name := "martingale", starting_gold := 0 }
    ∧ Event.goldRequired
        ∈ mainAfterOpts { bet_system_name := "martingale", starting_gold := 0 } := by
  decide

/-- C1 amended: if no termination condition is enabled and bankroll tracking
is disabled (`target_gold == 0`, `rounds == 0`, `starting_gold == 0`),
execution fails fast before any run starts — `reset()`/`run()` are never
called and the program exits with status 1 — and when the betting-system
checks themselves pass (which with zero gold means system "none"), the
reported error is the missing end condition of lines 161-163. -/
theorem no_end_condition_fails_fast (c : Config)
    (htarget : c.target_gold = 0) (hrounds : c.rounds = 0)
    (hgold : c.starting_gold = 0) :
    (mainAfterOpts c).countP Event.isRunActivity = 0
    ∧ Event.exitc 1 ∈ mainAfterOpts c
    ∧ (c.bet_system_name = "none" →
        mainAfterOpts c
          = [Event.loadStrat c.strat_file,
              Event.buildBet "none" c.bet_options,
              Event.noEndCondition, Event.exitc 1]) := by
  by_cases hmem : c.bet_system_name ∈ BETTING_SYSTEMS
  · by_cases hname : c.bet_system_name = "none"
    · have hEq : mainAfterOpts c
          = [Event.loadStrat c.strat_file,
              Event.buildBet "none" c.bet_options,
              Event.noEndCondition, Event.exitc 1] := by
        unfold mainAfterOpts
        simp [hmem, hname, htarget, hrounds, BETTING_SYSTEMS]
      exact ⟨by rw [hEq]; rfl, by rw [hEq]; simp, fun _ => hEq⟩
    · have hEq : mainAfterOpts c
          = [Event.loadStrat c.strat_file, Event.goldRequired, Event.exitc 1] := by
        unfold mainAfterOpts
        simp [hmem, hname, hgold]
      exact ⟨by rw [hEq]; rfl, by rw [hEq]; simp, fun h => absurd h hname⟩
  · have hEq : mainAfterOpts c
        = [Event.loadStrat c.strat_file,
            Event.invalidSystem c.bet_system_name,
            Event.availableSystems sortedSystems, Event.exitc 1] := by
      unfold mainAfterOpts
      simp [hmem]
    have hname : c.bet_system_name ≠ "none" := by
      intro h; exact hmem (by rw [h]; decide)
    exact ⟨by rw [hEq]; rfl, by rw [hEq]; simp, fun h => absurd h hname⟩

/-- C1 amended witness: the all-default configuration (system "none",
gold 0, target 0, rounds 0). -/
theorem no_end_condition_fails_fast_witness :
    (mainAfterOpts {}).countP Event.isRunActivity = 0
    ∧ Event.exitc 1 ∈ mainAfterOpts {}
    ∧ mainAfterOpts {}
        = [Event.loadStrat "strats/strat.txt", Event.buildBet "none" "",
            Event.noEndCondition, Event.exitc 1] :=
  ⟨(no_end_condition_fails_fast {} rfl rfl rfl).1,
    (no_end_condition_fails_fast {} rfl rfl rfl).2.1,
    (no_end_condition_fails_fast {} rfl rfl rfl).2.2 rfl⟩

/-- C4: for every configured iteration count N (a natural number) that passes
the configuration checks, the loop of lines 198-208 performs exactly N
iterations — the trace is N back-to-back copies of
`reset; run(rounds); addStats` (reset before run, stats folded exactly once
per iteration) — so the whole trace holds exactly N resets, N runs and N
stats merges. -/
theorem iteration_loop_exact (c : Config) (n : Nat)
    (hpass : c.checksPass) (hn : c.iterations = (n : Int)) :
    mainAfterOpts c
      = [Event.loadStrat c.strat_file,
          Event.buildBet c.bet_system_name c.bet_options, Event.banner]
        ++ (List.replicate n [Event.reset, Event.run c.rounds, Event.addStats]).flatten
        ++ [Event.completedIn, Event.results, Event.statsPrint]
    ∧ (mainAfterOpts c).countP Event.isReset = n
    ∧ (mainAfterOpts c).countP Event.isRun = n
    ∧ (mainAfterOpts c).countP Event.isAddStats = n := by
  obtain ⟨h1, h2, h3⟩ := hpass
  have hEq : mainAfterOpts c
      = [Event.loadStrat c.strat_file,
          Event.buildBet c.bet_system_name c.bet_options, Event.banner]
        ++ iterTrace c.rounds n
        ++ [Event.completedIn, Event.results, Event.statsPrint] := by
    unfold mainAfterOpts runPhase
    simp [h1, h2, h3, hn]
  refine ⟨by rw [hEq, iterTrace_eq_replicate], ?_, ?_, ?_⟩ <;>
    rw [hEq] <;>
    simp [List.countP_append, List.countP_cons, countP_iterTrace_reset,
      countP_iterTrace_run, countP_iterTrace_addStats, Event.isReset,
      Event.isRun, Event.isAddStats]

/-- C4 witness: two iterations with a gold target as end condition. -/
theorem iteration_loop_exact_witness :
    Config.checksPass { iterations := 2, target_gold := 100 }
    ∧ (mainAfterOpts { iterations := 2, target_gold := 100 }
        ).countP Event.isReset = 2 :=
  ⟨by decide,
    (iteration_loop_exact { iterations := 2, target_gold := 100 } 2
      (by decide) rfl).2.1⟩

/-- C5: the strategy table is loaded exactly once per invocation — the trace
after option processing starts with the single `loadStrat` event and no later
event (in particular no iteration of the loop) loads it again; over the whole
of `main`, whatever the arguments, the strategy is loaded at most once. -/
theorem strategy_loaded_once (c : Config) (argc : Nat) (opts : List Opt) :
    (∃ rest, mainAfterOpts c = Event.loadStrat c.strat_file :: rest
      ∧ rest.countP Event.isLoadStrat = 0)
    ∧ (main argc opts).countP Event.isLoadStrat ≤ 1 := by
  refine ⟨mainAfterOpts_loadStrat_once c, ?_⟩
  unfold main
  split
  · decide
  · rcases hpo : processOpts {} opts with ⟨es, r⟩
    have hes : es.countP Event.isLoadStrat = 0 := by
      have := processOpts_countP_loadStrat opts {}
      rw [hpo] at this
      exact this
    cases r with
    | none => simp [hes]
    | some c' =>
      obtain ⟨rest, hEq, hrest⟩ := mainAfterOpts_loadStrat_once c'
      simp [List.countP_append, hes, hEq, List.countP_cons, hrest,
        Event.isLoadStrat]

/-- C8: with fewer than two entries in `sys.argv` (zero command-line
arguments), `main` prints the usage text and exits with status 1, never
loading a strategy, constructing a betting system, or starting an
iteration. -/
theorem no_args_usage_and_exit (opts : List Opt) :
    main 1 opts = [Event.usage, Event.exitc 1]
    ∧ (main 1 opts).countP Event.isLoadStrat = 0
    ∧ (main 1 opts).countP Event.isBuildBet = 0
    ∧ (main 1 opts).countP Event.isRunActivity = 0 := by
  have hEq : main 1 opts = [Event.usage, Event.exitc 1] := by
    unfold main
    simp
  exact ⟨hEq, by rw [hEq]; rfl, by rw [hEq]; rfl, by rw [hEq]; rfl⟩

/-- C10: when the configuration checks pass but the configured iteration
count is zero or negative, `range(0, iterations)` is empty: no `reset` or
`run` ever happens, yet `main` completes normally — the Results block and
the total stats are still printed and no `sys.exit` is reached. -/
theorem nonpositive_iterations_no_runs (c : Config)
    (hpass : c.checksPass) (hiter : c.iterations ≤ 0) :
    mainAfterOpts c
      = [Event.loadStrat c.strat_file,
          Event.buildBet c.bet_system_name c.bet_options, Event.banner,
          Event.completedIn, Event.results, Event.statsPrint]
    ∧ (mainAfterOpts c).countP Event.isRunActivity = 0
    ∧ Event.results ∈ mainAfterOpts c
    ∧ Event.statsPrint ∈ mainAfterOpts c
    ∧ ∀ k, Event.exitc k ∉ mainAfterOpts c := by
  obtain ⟨h1, h2, h3⟩ := hpass
  have htn : c.iterations.toNat = 0 := Int.toNat_of_nonpos hiter
  have hEq : mainAfterOpts c
      = [Event.loadStrat c.strat_file,
          Event.buildBet c.bet_system_name c.bet_options, Event.banner,
          Event.completedIn, Event.results, Event.statsPrint] := by
    unfold mainAfterOpts runPhase
    simp [h1, h2, h3, htn, iterTrace]
  refine ⟨hEq, by rw [hEq]; rfl, by rw [hEq]; simp, by rw [hEq]; simp, ?_⟩
  intro k
  rw [hEq]
  simp

/-- C10 witness: zero iterations with a gold target as end condition. -/
theorem nonpositive_iterations_no_runs_witness :
    Config.checksPass { iterations := 0, target_gold := 100 }
    ∧ (mainAfterOpts { iterations := 0, target_gold := 100 }
        ).countP Event.isRunActivity = 0 :=
  ⟨by decide,
    (nonpositive_iterations_no_runs { iterations := 0, target_gold := 100 }
      (by decide) (by decide)).2.1⟩

/-- Processing a prefix that contains neither `-h`/`--help` nor
`--list-bet-systems` never exits: it only opens output files, and the
`--list-bet-systems` that follows prints the sorted names and exits 0. -/
theorem processOpts_listBetSystems (pre : List Opt) :
    ∀ (c : Config) (post : List Opt),
    (∀ o ∈ pre, o ≠ Opt.help ∧ o ≠ Opt.listBetSystems) →
    ∃ es, processOpts c (pre ++ Opt.listBetSystems :: post)
        = (es ++ [Event.listSystems sortedSystems, Event.exitc 0], none)
      ∧ ∀ e ∈ es, ∃ a, e = Event.openOut a := by
  induction pre with
  | nil =>
    intro c post _
    exact ⟨[], rfl, by simp⟩
  | cons o rest ih =>
    intro c post hpre
    have ho := hpre o (by simp)
    have hrest : ∀ o ∈ rest, o ≠ Opt.help ∧ o ≠ Opt.listBetSystems :=
      fun o ho => hpre o (by simp [ho])
    cases o with
    | help => exact absurd rfl ho.1
    | listBetSystems => exact absurd rfl ho.2
    | outFile a =>
      obtain ⟨es, hEq, hes⟩ := ih { c with hasOutFile := true } post hrest
      refine ⟨Event.openOut a :: es, ?_, ?_⟩
      · simp [processOpts, hEq]
      · intro e he
        rcases List.mem_cons.mp he with h | h
        · exact ⟨a, h⟩
        · exact hes e h
    | verbose => exact ih _ post hrest
    | strat a => exact ih _ post hrest
    | betSystem a => exact ih _ post hrest
    | betOptions a => exact ih _ post hrest
    | iterations n => exact ih _ post hrest
    | rounds n => exact ih _ post hrest
    | gold n => exact ih _ post hrest
    | target n => exact ih _ post hrest
    | antiFallacy => exact ih _ post hrest

/-- C9 counterexample: `--list-bet-systems` is present in
`["-h", "--list-bet-systems"]`, but the program never prints the list of
betting systems — the preceding `-h` prints the usage text and exits
first. -/
theorem list_bet_systems_not_printed_after_help :
    Opt.listBetSystems ∈ [Opt.help, Opt.listBetSystems]
    ∧ main 2 [Opt.help, Opt.listBetSystems] = [Event.usage, Event.exitc 0]
    ∧ (main 2 [Opt.help, Opt.listBetSystems]).countP Event.isListSystems = 0 := by
  decide

/-- C9 amended: when `--list-bet-systems` is present and no earlier option
itself exits during processing (no earlier `-h`/`--help` or
`--list-bet-systems`), the program prints the sorted list of available
betting-system names — sorted ascending by code point and a permutation of
the `BETTING_SYSTEMS` keys — and exits with status 0 during option
processing; at most output-file openings precede it, and the strategy file
is never loaded, no validation message is emitted, and no run starts. -/
theorem list_bet_systems_exits_early (argc : Nat) (pre post : List Opt)
    (hargc : 2 ≤ argc)
    (hpre : ∀ o ∈ pre, o ≠ Opt.help ∧ o ≠ Opt.listBetSystems) :
    ∃ es, main argc (pre ++ Opt.listBetSystems :: post)
        = es ++ [Event.listSystems sortedSystems, Event.exitc 0]
      ∧ (∀ e ∈ es, ∃ a, e = Event.openOut a)
      ∧ (main argc (pre ++ Opt.listBetSystems :: post)).countP
          Event.isLoadStrat = 0
      ∧ (main argc (pre ++ Opt.listBetSystems :: post)).countP
          Event.isRunActivity = 0
      ∧ Event.goldRequired ∉ main argc (pre ++ Opt.listBetSystems :: post)
      ∧ Event.noEndCondition ∉ main argc (pre ++ Opt.listBetSystems :: post)
      ∧ sortedSystems.Perm BETTING_SYSTEMS
      ∧ sortedSystems.Pairwise (fun a b => strLe a b = true) := by
  obtain ⟨es, hEq, hes⟩ := processOpts_listBetSystems pre {} post hpre
  have hmain : main argc (pre ++ Opt.listBetSystems :: post)
      = es ++ [Event.listSystems sortedSystems, Event.exitc 0] := by
    unfold main
    rw [if_neg (by omega), hEq]
  have hcount : ∀ p : Event → Bool,
      (∀ a, p (Event.openOut a) = false) →
      p (Event.listSystems sortedSystems) = false →
      p (Event.exitc 0) = false →
      (main argc (pre ++ Opt.listBetSystems :: post)).countP p = 0 := by
    intro p hopen hlist hexit
    rw [hmain, List.countP_append, List.countP_eq_zero.mpr, List.countP_cons,
      List.countP_cons]
    · simp [hlist, hexit]
    · intro e he
      obtain ⟨a, rfl⟩ := hes e he
      simp [hopen]
  have hnotin : ∀ x : Event, x.isRunActivity = false → x ≠ Event.listSystems
      sortedSystems → x ≠ Event.exitc 0 → (∀ a, x ≠ Event.openOut a) →
      x ∉ main argc (pre ++ Opt.listBetSystems :: post) := by
    intro x _ hx1 hx2 hx3 hmem
    rw [hmain] at hmem
    rcases List.mem_append.mp hmem with h | h
    · obtain ⟨a, ha⟩ := hes x h
      exact hx3 a ha
    · rcases List.mem_cons.mp h with h | h
      · exact hx1 h
      · rcases List.mem_cons.mp h with h | h
        · exact hx2 h
        · simp at h
  refine ⟨es, hmain, hes, ?_, ?_, ?_, ?_, by decide, by decide⟩
  · exact hcount _ (fun _ => rfl) rfl rfl
  · exact hcount _ (fun _ => rfl) rfl rfl
  · exact hnotin _ rfl (by simp) (by simp) (fun a => by simp)
  · exact hnotin _ rfl (by simp) (by simp) (fun a => by simp)

/-- C9 amended witness: `--verbose --list-bet-systems`. -/
theorem list_bet_systems_exits_early_witness :
    2 ≤ 2
    ∧ (∀ o ∈ [Opt.verbose], o ≠ Opt.help ∧ o ≠ Opt.listBetSystems)
    ∧ ∃ es, main 2 ([Opt.verbose] ++ Opt.listBetSystems :: [])
        = es ++ [Event.listSystems sortedSystems, Event.exitc 0] :=
  ⟨by decide, by decide,
    ⟨(list_bet_systems_exits_early 2 [Opt.verbose] [] (by decide)
        (by decide)).choose,
      (list_bet_systems_exits_early 2 [Opt.verbose] [] (by decide)
        (by decide)).choose_spec.1⟩⟩

/-- Folding two runs into the accumulator commutes: all fields are Int sums,
a `min`, or a `+1` count. -/
theorem totalStats_add_swap (t : TotalStats) (a b : RunStats) :
    (t.add a).add b = (t.add b).add a := by
  simp only [TotalStats.add, TotalStats.mk.injEq]
  refine ⟨?_, ?_, ?_, ?_, ?_, ?_, min_right_comm _ _ _, ?_, ?_⟩
  all_goals first | omega | trivial

/-- Folding a permuted list of run stats into the accumulator gives the same
total. -/
theorem foldl_add_perm {l₁ l₂ : List RunStats} (h : l₁.Perm l₂) :
    ∀ t : TotalStats, l₁.foldl TotalStats.add t = l₂.foldl TotalStats.add t := by
  induction h with
  | nil => intro t; rfl
  | cons x h ih => intro t; simp only [List.foldl_cons]; exact ih _
  | swap x y l =>
    intro t
    simp only [List.foldl_cons]
    rw [totalStats_add_swap]
  | trans h1 h2 ih1 ih2 => intro t; rw [ih1, ih2]

/-- C6: merging three runs A, B, C into a `TotalStats` in any order yields
the same accumulator — identical counters and min floor — and hence the same
final mean of the end-gold values (spec-modelled from §4.6: sums for
counters, `min` for the floor, running sum and count for means). -/
theorem totalStats_add_order_independent (t : TotalStats) (A B C : RunStats)
    (l : List RunStats) (hperm : l.Perm [A, B, C]) :
    l.foldl TotalStats.add t = ((t.add A).add B).add C
    ∧ (l.foldl TotalStats.add t).meanGoldEnd
        = (((t.add A).add B).add C).meanGoldEnd := by
  have h : l.foldl TotalStats.add t = ((t.add A).add B).add C :=
    foldl_add_perm hperm t
  exact ⟨h, by rw [h]⟩

/-- C6 witness: a concrete merge of three runs in the order B, C, A. -/
theorem totalStats_add_order_independent_witness :
    ([⟨2, 1, 1, 0, 0, 0, 100, 120, 90⟩,
      ⟨5, 2, 3, 0, 1, 1, 100, 60, 40⟩,
      ⟨3, 0, 3, 0, 0, 2, 100, 70, 70⟩] : List RunStats).Perm
      [⟨3, 0, 3, 0, 0, 2, 100, 70, 70⟩,
        ⟨2, 1, 1, 0, 0, 0, 100, 120, 90⟩,
        ⟨5, 2, 3, 0, 1, 1, 100, 60, 40⟩]
    ∧ ([⟨2, 1, 1, 0, 0, 0, 100, 120, 90⟩,
        ⟨5, 2, 3, 0, 1, 1, 100, 60, 40⟩,
        ⟨3, 0, 3, 0, 0, 2, 100, 70, 70⟩] : List RunStats).foldl
          TotalStats.add ⟨0, 0, 0, 0, 0, 0, 100, 0, 0⟩
      = ((TotalStats.add (TotalStats.add
          (TotalStats.add ⟨0, 0, 0, 0, 0, 0, 100, 0, 0⟩
            ⟨3, 0, 3, 0, 0, 2, 100, 70, 70⟩)
          ⟨2, 1, 1, 0, 0, 0, 100, 120, 90⟩)
          ⟨5, 2, 3, 0, 1, 1, 100, 60, 40⟩)) :=
  ⟨by decide,
    (totalStats_add_order_independent ⟨0, 0, 0, 0, 0, 0, 100, 0, 0⟩
      ⟨3, 0, 3, 0, 0, 2, 100, 70, 70⟩
      ⟨2, 1, 1, 0, 0, 0, 100, 120, 90⟩
      ⟨5, 2, 3, 0, 1, 1, 100, 60, 40⟩
      _ (by decide)).1⟩

/-- The termination check only ever produces one of the three documented
reasons. -/
theorem checkTermination_mem (target max_rounds gold : Int) (rounds : Nat)
    (s : String) (h : checkTermination target max_rounds gold rounds = some s) :
    s = "target reached" ∨ s = "broke" ∨ s = "rounds exhausted" := by
  unfold checkTermination at h
  split at h
  · exact Or.inl (Option.some_inj.mp h).symm
  · split at h
    · exact Or.inr (Or.inl (Option.some_inj.mp h).symm)
    · split at h
      · exact Or.inr (Or.inr (Option.some_inj.mp h).symm)
      · exact absurd h (by simp)

/-- Once the round counter reaches a positive `max_rounds`, the termination
check fires (with one reason or another). -/
theorem checkTermination_fires (target max_rounds gold : Int) (rounds : Nat)
    (hc : max_rounds > 0 ∧ (rounds : Int) ≥ max_rounds) :
    checkTermination target max_rounds gold rounds ≠ none := by
  simp only [checkTermination, if_pos hc]
  split
  · simp
  · split <;> simp

/-- The run loop with positive `max_rounds` always returns within the
remaining round budget, with one of the three documented reasons. -/
theorem runLoop_terminates (oracle : Nat → RoundOutcome)
    (target max_rounds : Int) (hpos : 0 < max_rounds) :
    ∀ (fuel : Nat) (gold : Int) (rounds : Nat),
      rounds < max_rounds.toNat → max_rounds.toNat ≤ rounds + fuel →
      ∃ reason final,
        runLoop oracle target max_rounds fuel gold rounds = some (reason, final)
        ∧ (reason = "target reached" ∨ reason = "broke"
            ∨ reason = "rounds exhausted")
        ∧ final ≤ max_rounds.toNat := by
  intro fuel
  induction fuel with
  | zero => intro gold rounds h1 h2; omega
  | succ fuel ih =>
    intro gold rounds h1 h2
    cases hct : checkTermination target max_rounds
        (applyOutcome gold (oracle rounds)) (rounds + 1) with
    | some reason =>
      exact ⟨reason, rounds + 1, by simp [runLoop, hct],
        checkTermination_mem _ _ _ _ _ hct, by omega⟩
    | none =>
      have hlt : rounds + 1 < max_rounds.toNat := by
        by_contra hge
        exact checkTermination_fires target max_rounds
          (applyOutcome gold (oracle rounds)) (rounds + 1)
          ⟨hpos, by omega⟩ hct
      obtain ⟨reason, final, hrun, hmem, hle⟩ :=
        ih (applyOutcome gold (oracle rounds)) (rounds + 1) hlt (by omega)
      exact ⟨reason, final, by simp [runLoop, hct, hrun], hmem, hle⟩

/-- C7: for every run started with `max_rounds > 0` — whatever the betting
system and round engine do (the oracle), whatever the target and starting
gold — `run(max_rounds)` terminates with a reason in {"target reached",
"broke", "rounds exhausted"} and never plays more than `max_rounds` rounds
(spec-modelled from §4.5). -/
theorem run_terminates (oracle : Nat → RoundOutcome)
    (target_gold starting_gold max_rounds : Int) (h : 0 < max_rounds) :
    ∃ reason final,
      Simulator.run oracle target_gold starting_gold max_rounds
        = some (reason, final)
      ∧ (reason = "target reached" ∨ reason = "broke"
          ∨ reason = "rounds exhausted")
      ∧ (final : Int) ≤ max_rounds := by
  obtain ⟨reason, final, hrun, hmem, hle⟩ :=
    runLoop_terminates oracle target_gold max_rounds h
      max_rounds.toNat starting_gold 0 (by omega) (by omega)
  exact ⟨reason, final, hrun, hmem, by omega⟩

/-- C7 witness: flat 10-gold losses from 1000 gold, target 2000, 5 rounds
budget — the run terminates ("rounds exhausted") within 5 rounds. -/
theorem run_terminates_witness :
    (0 : Int) < 5
    ∧ ∃ reason final,
        Simulator.run (fun _ => RoundOutcome.played (-10)) 2000 1000 5
          = some (reason, final)
        ∧ (reason = "target reached" ∨ reason = "broke"
            ∨ reason = "rounds exhausted")
        ∧ (final : Int) ≤ 5 :=
  ⟨by decide,
    run_terminates (fun _ => RoundOutcome.played (-10)) 2000 1000 5 (by decide)⟩

end Casinosim
